import Mathlib

/-!
Shallow embedding of the go-rack-attack rate limiter (package `rackattack`,
file `rack_attack.go`).  Strings are modelled as lists of characters
(`Str`); Go byte-level operations on the ASCII delimiters used by the code
(`/`, `.`, `*`, `:`, `,`, digits) coincide with character-level operations.
Machine integers (`int`, `int64`) are modelled as `Int`: the code only
increments counters and compares them, so no overflow is reachable in the
scenarios considered.
-/

/-- Character-list model of Go strings. -/
abbrev Str := List Char

/-- Coercion from Lean string literals to the `Str` model. -/
def str (s : String) : Str := s.data

namespace GoStd

/-- Model of Go `strings.TrimSuffix`: drop `suf` from the end of `s` when
present, otherwise return `s` unchanged. -/
def trimSuffix (s suf : Str) : Str :=
  if suf.isSuffixOf s then s.take (s.length - suf.length) else s

/-- Split a character list at every `/`, keeping empty segments. -/
def splitSlash : Str → List Str
  | [] => [[]]
  | c :: cs =>
    match splitSlash cs with
    | [] => [[]]
    | s :: rest => if c = '/' then [] :: s :: rest else (c :: s) :: rest

/-- One step of the segment-stack evaluation of Go `path.Clean`: empty and
`.` segments are dropped, `..` pops the previous segment (except past a
leading run of `..` in a relative path, or at the root of a rooted path),
and every other segment is pushed. -/
def cleanStep (rooted : Bool) (stack : List Str) (seg : Str) : List Str :=
  if seg = [] ∨ seg = ['.'] then stack
  else if seg = ['.', '.'] then
    match stack.getLast? with
    | some t =>
      if t = ['.', '.'] then (if rooted then stack else stack ++ [seg])
      else stack.dropLast
    | none => if rooted then [] else [seg]
  else stack ++ [seg]

/-- Model of Go `path.Clean`: lexical canonicalisation of a slash-separated
path (collapse repeated separators, eliminate `.` and inner `..`
segments, drop `..` at the root of a rooted path; empty result becomes
`.`). -/
def pathClean (p : Str) : Str :=
  if p = [] then ['.']
  else
    let rooted := p.head? = some '/'
    let stack := (splitSlash p).foldl (cleanStep rooted) []
    let body := (stack.intersperse ['/']).flatten
    if rooted then '/' :: body
    else if body = [] then ['.'] else body

end GoStd

/-- Throttle rule, translated from the Go struct `ThrottleRule`
(`PathPattern`, `Method`, `Key`, `Limit int`, `Period time.Duration`;
the duration is an integer number of nanoseconds). -/
structure ThrottleRule where
  PathPattern : Str
  Method : Str
  Key : Str
  Limit : Int
  Period : Int
deriving DecidableEq

/-- Translation of the Go method `(*ThrottleRule).matchesPath`: clean the
request path; an empty pattern matches everything; a pattern containing
`*` is matched by testing whether `cleanPath ++ "/"` starts with
`TrimSuffix(pattern, "/*") ++ "/"`; otherwise the cleaned path must equal
the cleaned pattern. -/
def matchesPath (r : ThrottleRule) (reqPath : Str) : Bool :=
  let cleanPath := GoStd.pathClean reqPath
  if r.PathPattern = [] then true
  else if r.PathPattern.contains '*' then
    let pattern := GoStd.trimSuffix r.PathPattern (str "/*")
    (pattern ++ ['/']).isPrefixOf (cleanPath ++ ['/'])
  else cleanPath = GoStd.pathClean r.PathPattern

/-- Translation of the key rendering in `IsThrottled`:
`strings.NewReplacer("%\x7bip\x7d", ip, "%\x7bpath\x7d", path).Replace(key)`,
a single left-to-right scan replacing each non-overlapping occurrence of a
placeholder; replacement text is not rescanned. -/
def renderScan (ip p : Str) : Str → Str
  | '%' :: '\x7b' :: 'i' :: 'p' :: '\x7d' :: rest => ip ++ renderScan ip p rest
  | '%' :: '\x7b' :: 'p' :: 'a' :: 't' :: 'h' :: '\x7d' :: rest => p ++ renderScan ip p rest
  | c :: rest => c :: renderScan ip p rest
  | [] => []

/-- Render a counter key from a rule's key template, the extracted client
IP and the raw request path. -/
def renderKey (tpl ip p : Str) : Str := renderScan ip p tpl

namespace GoNet

/-- Model of the Go `net` collaborator library's decimal reader `dtoi`:
the value and length of the leading run of decimal digits, `none` when
there is no leading digit.  (Go caps the value at `big = 0xFFFFFF` and
reports failure; every caller here also rejects such large values, so
reading the full digit run is equivalent.) -/
def dtoi (s : Str) : Option (Nat × Nat) :=
  let digits := s.takeWhile (fun c => decide ('0' ≤ c) && decide (c ≤ '9'))
  if digits = [] then none
  else some (digits.foldl (fun n c => n * 10 + (c.toNat - '0'.toNat)) 0, digits.length)

/-- Model of the Go `net` collaborator's `parseIPv4`: exactly four
dot-separated decimal fields, each at most 255, with leading zeros
rejected; the result is the four byte values.  IPv6 textual forms are
outside the scope of the claims and parse to `none` here (none of the
claims' inputs or the repository's tests use IPv6 literals). -/
def parseIPv4 (s : Str) : Option (List Nat) :=
  match dtoi s with
  | none => none
  | some (a, ca) =>
    if a > 255 ∨ (ca > 1 ∧ s.head? = some '0') then none else
    let s1 := s.drop ca
    match s1 with
    | '.' :: t1 =>
      match dtoi t1 with
      | none => none
      | some (b, cb) =>
        if b > 255 ∨ (cb > 1 ∧ t1.head? = some '0') then none else
        let s2 := t1.drop cb
        match s2 with
        | '.' :: t2 =>
          match dtoi t2 with
          | none => none
          | some (c, cc) =>
            if c > 255 ∨ (cc > 1 ∧ t2.head? = some '0') then none else
            let s3 := t2.drop cc
            match s3 with
            | '.' :: t3 =>
              match dtoi t3 with
              | none => none
              | some (d, cd) =>
                if d > 255 ∨ (cd > 1 ∧ t3.head? = some '0') then none else
                if t3.drop cd = [] then some [a, b, c, d] else none
            | _ => none
        | _ => none
    | _ => none

/-- Model of Go `net.ParseIP` restricted to the IPv4 fragment exercised by
this repository; a 4-byte address on success, `none` (Go `nil`) on
failure. -/
def parseIP (s : Str) : Option (List Nat) := parseIPv4 s

/-- Model of Go `net.IPNet` as produced by `net.ParseCIDR` for IPv4: a
masked 4-byte network number and a 4-byte mask. -/
structure IPNet where
  ip : List Nat
  mask : List Nat
deriving DecidableEq

/-- Byte `i` of a CIDR mask with `ones` leading one bits: `255` for fully
covered bytes, `0` for uncovered ones, and `256 - 2 ^ (8 - k)` for a
partially covered byte with `k` leading ones. -/
def maskByte (k : Nat) : Nat := 256 - 2 ^ (8 - min k 8)

/-- Model of Go `net.CIDRMask(ones, 32)` as four byte values. -/
def cidrMask (ones : Nat) : List Nat :=
  (List.range 4).map (fun i => maskByte (ones - 8 * i))

/-- Model of Go `net.ParseCIDR` for IPv4 `addr/prefixLen` notation:
parse the address part, read the decimal prefix length (at most 32),
and return the network with the address masked down (Go stores
`ip.Mask(m)`).  Malformed input yields `none` (Go returns an error). -/
def parseCIDR (s : Str) : Option IPNet :=
  match s.splitOn '/' with
  | [addr, maskStr] =>
    match parseIPv4 addr with
    | none => none
    | some ip =>
      match dtoi maskStr with
      | none => none
      | some (n, c) =>
        if c = maskStr.length ∧ n ≤ 32 then
          let m := cidrMask n
          some ⟨List.zipWith Nat.land ip m, m⟩
        else none
  | _ => none

/-- Masked byte-wise comparison used by `IPNet.Contains`: true when the
three lists have equal length and each address byte agrees with the
network byte under the mask. -/
def maskEq : List Nat → List Nat → List Nat → Bool
  | [], [], [] => true
  | a :: as, m :: ms, b :: bs => (Nat.land a m == Nat.land b m) && maskEq as ms bs
  | _, _, _ => false

/-- Model of Go `(*net.IPNet).Contains`: a `nil` IP (`none`, e.g. from a
failed parse) has length 0, fails the length comparison against the
4-byte network number, and is contained in no range; otherwise compare
the masked bytes. -/
def ipnetContains (n : IPNet) (ip : Option (List Nat)) : Bool :=
  maskEq n.ip n.mask (ip.getD [])

/-- Index of the last occurrence of `c` in `s`, if any. -/
def lastIdxOf (c : Char) (s : Str) : Option Nat :=
  match s.reverse.findIdx? (· == c) with
  | none => none
  | some j => some (s.length - 1 - j)

/-- Model of the host component of Go `net.SplitHostPort`, as consumed by
`clientIP` via `ip, _, _ := net.SplitHostPort(req.RemoteAddr)`: on any
parse error the host is the empty string.  The host is everything before
the last colon; a bracketed host `[h]:port` is unwrapped; a colon inside
an unbracketed host, missing port, or stray bracket is an error. -/
def splitHostPortHost (s : Str) : Str :=
  match lastIdxOf ':' s with
  | none => []
  | some i =>
    if s.head? = some '[' then
      match (s.drop 1).findIdx? (· == ']') with
      | none => []
      | some j =>
        let endIdx := j + 1
        if endIdx + 1 ≠ i then []
        else
          let host := (s.drop 1).take j
          if (s.drop 1).contains '[' ∨ (s.drop (endIdx + 1)).contains ']' then []
          else host
    else
      let host := s.take i
      if host.contains ':' ∨ s.contains '[' ∨ s.contains ']' then []
      else host

end GoNet

/-- HTTP request, restricted to the fields `IsThrottled` reads:
`Header.Get("X-Forwarded-For")` (the empty string when the header is
absent), `RemoteAddr`, `Method` and `URL.Path`. -/
structure Request where
  xForwardedFor : Str
  remoteAddr : Str
  method : Str
  urlPath : Str
deriving DecidableEq

/-- Engine state, translated from the Go struct `RedisRackAttack`.  The
Go sets `map[string]bool` (only ever storing `true`) are modelled as
lists queried by membership; the Redis client handle is factored out as
an explicit `CounterStore` argument of `IsThrottled`. -/
structure RedisRackAttack where
  throttleRules : List ThrottleRule
  safelistIPs : List Str
  blocklistIPs : List Str
  blocklistCIDRs : List GoNet.IPNet
deriving DecidableEq

/-- Translation of `New`: empty rule list, empty sets, no CIDR ranges. -/
def New : RedisRackAttack := ⟨[], [], [], []⟩

/-- Translation of `(*RedisRackAttack).SafelistIP`: insert into the
safelist set. -/
def SafelistIP (ra : RedisRackAttack) (ip : Str) : RedisRackAttack :=
  { ra with safelistIPs := ra.safelistIPs ++ [ip] }

/-- Translation of `(*RedisRackAttack).BlocklistIP`: insert into the
blocklist set. -/
def BlocklistIP (ra : RedisRackAttack) (ip : Str) : RedisRackAttack :=
  { ra with blocklistIPs := ra.blocklistIPs ++ [ip] }

/-- Translation of `(*RedisRackAttack).BlocklistCIDR`: parse the CIDR and
append it, or report the parse error and leave the state unchanged. -/
def BlocklistCIDR (ra : RedisRackAttack) (cidr : Str) : Except Str RedisRackAttack :=
  match GoNet.parseCIDR cidr with
  | none => .error (str "invalid CIDR address")
  | some ipNet => .ok { ra with blocklistCIDRs := ra.blocklistCIDRs ++ [ipNet] }

/-- Translation of `(*RedisRackAttack).AddThrottleRule`: append the rule,
with no validation of any kind. -/
def AddThrottleRule (ra : RedisRackAttack) (rule : ThrottleRule) : RedisRackAttack :=
  { ra with throttleRules := ra.throttleRules ++ [rule] }

/-- Translation of `(*RedisRackAttack).clientIP`: the part of the
`X-Forwarded-For` header before the first comma when the header is
non-empty, else the host part of `RemoteAddr` (empty on a split
error). -/
def clientIP (req : Request) : Str :=
  if req.xForwardedFor ≠ [] then req.xForwardedFor.takeWhile (· ≠ ',')
  else GoNet.splitHostPortHost req.remoteAddr

/-- Translation of `(*RedisRackAttack).IsBlocked`: true when the IP string
is in the exact blocklist set, or when the parsed IP lies in one of the
registered CIDR ranges. -/
def IsBlocked (ra : RedisRackAttack) (ip : Str) : Bool :=
  if ra.blocklistIPs.contains ip then true
  else
    let parsedIP := GoNet.parseIP ip
    ra.blocklistCIDRs.any (fun cidr => GoNet.ipnetContains cidr parsedIP)

/-- Abstract counter store holding the two Redis operations `IsThrottled`
invokes, over an explicit backend state `σ`: `incr` returns the
post-increment count or an error, `expire` sets a key's time-to-live
(its Redis reply is ignored by the Go code).  Modelled from the spec:
the CounterStore collaborator (§4.5) standing for the `redis.Client`
handle, whose network behaviour is outside the repository. -/
structure CounterStore (σ : Type) where
  incr : σ → Str → Except Str Int × σ
  expire : σ → Str → Int → σ

/-- Translation of the rule loop of `IsThrottled`: skip rules whose path
pattern or method does not match; render the counter key; increment it,
propagating an increment error as `(false, some err)` at once; on a
count of exactly 1 set the key's expiry to the rule's period; and
return `(true, none)` as soon as a count exceeds its rule's limit. -/
def throttleLoop (store : CounterStore σ) (ip reqPath reqMethod : Str) :
    List ThrottleRule → σ → (Bool × Option Str) × σ
  | [], s => ((false, none), s)
  | rule :: rest, s =>
    if !(matchesPath rule reqPath && reqMethod == rule.Method) then
      throttleLoop store ip reqPath reqMethod rest s
    else
      let key := renderKey rule.Key ip reqPath
      match store.incr s key with
      | (.error e, s1) => ((false, some e), s1)
      | (.ok count, s1) =>
        let s2 := if count == 1 then store.expire s1 key rule.Period else s1
        if count > rule.Limit then ((true, none), s2)
        else throttleLoop store ip reqPath reqMethod rest s2

/-- Translation of `(*RedisRackAttack).IsThrottled`: extract the client
IP; a safelisted IP is allowed immediately; a blocked IP is denied
immediately; otherwise the registered rules are evaluated in order by
`throttleLoop`. -/
def IsThrottled (store : CounterStore σ) (ra : RedisRackAttack) (req : Request)
    (s : σ) : (Bool × Option Str) × σ :=
  let ip := clientIP req
  let reqPath := req.urlPath
  if ra.safelistIPs.contains ip then ((false, none), s)
  else if IsBlocked ra ip then ((true, none), s)
  else throttleLoop store ip reqPath req.method ra.throttleRules s

/-- Live counter entry: a value together with an optional absolute expiry
deadline. -/
structure RedisEntry where
  value : Int
  deadline : Option Int
deriving DecidableEq

/-- State of the Redis backend model: a logical clock and a partial map
from keys to entries.  Modelled from the spec: the CounterStore backend
(§4.5, §6) — an atomic increment-with-expiry key-value service; a key
whose deadline has passed behaves as absent. -/
structure RedisState where
  now : Int
  entries : Str → Option RedisEntry

/-- Entry visible at `k`, taking expiry into account: an entry whose
deadline is at or before the current time is gone. -/
def liveEntry (s : RedisState) (k : Str) : Option RedisEntry :=
  match s.entries k with
  | none => none
  | some e =>
    match e.deadline with
    | none => some e
    | some d => if s.now < d then some e else none

/-- Functional update of the entry map at one key. -/
def setEntry (s : RedisState) (k : Str) (e : RedisEntry) : RedisState :=
  { s with entries := fun k2 => if k2 = k then some e else s.entries k2 }

/-- Model of Redis `INCR`: a missing (or expired) key is created with
value 1 and no time-to-live; an existing key is incremented keeping its
deadline.  This model never fails. -/
def redisIncr (s : RedisState) (k : Str) : Except Str Int × RedisState :=
  match liveEntry s k with
  | some e => (.ok (e.value + 1), setEntry s k ⟨e.value + 1, e.deadline⟩)
  | none => (.ok 1, setEntry s k ⟨1, none⟩)

/-- Model of Redis `EXPIRE`: set the deadline of a live key to the period
from now; a missing key is left untouched. -/
def redisExpire (s : RedisState) (k : Str) (period : Int) : RedisState :=
  match liveEntry s k with
  | some e => setEntry s k ⟨e.value, some (s.now + period)⟩
  | none => s

/-- The healthy Redis backend as a `CounterStore`. -/
def redisModel : CounterStore RedisState := ⟨redisIncr, redisExpire⟩

/-- Redis backend with an empty keyspace at time 0. -/
def freshRedis : RedisState := ⟨0, fun _ => none⟩

/-- Advance the backend clock by `d` (the test suite's
`miniredis.FastForward`). -/
def advance (s : RedisState) (d : Int) : RedisState := { s with now := s.now + d }

/-- Backend that fails every increment on one designated key with a
connection error and behaves like the healthy model elsewhere.
Modelled from the spec: the `StorageFailure` case of §7 (network error,
timeout, backend unavailable). -/
def failingStore (bad : Str) : CounterStore RedisState where
  incr := fun s k =>
    if k = bad then (.error (str "connection refused"), s) else redisIncr s k
  expire := redisExpire

/-- Run `IsThrottled` over a list of requests in order, threading the
backend state, and collect the decisions. -/
def runAll (store : CounterStore σ) (ra : RedisRackAttack) :
    List Request → σ → List (Bool × Option Str) × σ
  | [], s => ([], s)
  | r :: rest, s =>
    let p1 := IsThrottled store ra r s
    let p2 := runAll store ra rest p1.2
    (p1.1 :: p2.1, p2.2)

/-- Request `r` is matched by `rule`, is neither safelisted nor blocked in
`ra`, and renders the counter key `k`. -/
def GoodReq (ra : RedisRackAttack) (rule : ThrottleRule) (k : Str) (r : Request) : Prop :=
  ra.safelistIPs.contains (clientIP r) = false ∧
  IsBlocked ra (clientIP r) = false ∧
  matchesPath rule r.urlPath = true ∧
  r.method = rule.Method ∧
  renderKey rule.Key (clientIP r) r.urlPath = k

instance (ra : RedisRackAttack) (rule : ThrottleRule) (k : Str) (r : Request) :
    Decidable (GoodReq ra rule k r) := by
  unfold GoodReq
  infer_instance

/-- Rule of the repository test `TestThrottleLimit`: empty `Method`, limit
2, period one minute (in nanoseconds). -/
def tlRule : ThrottleRule :=
  ⟨[], [], str "throttle:test:%\x7bip\x7d", 2, 60000000000⟩

/-- Engine holding only `tlRule`. -/
def tlEngine : RedisRackAttack := AddThrottleRule New tlRule

/-- The GET request sent by `TestThrottleLimit` from `10.0.0.5:1234`. -/
def tlReq : Request := ⟨[], str "10.0.0.5:1234", str "GET", str "/"⟩

/-- First, second and third evaluations of `TestThrottleLimit`'s request. -/
def tlRun1 := IsThrottled redisModel tlEngine tlReq freshRedis

def tlRun2 := IsThrottled redisModel tlEngine tlReq tlRun1.2

def tlRun3 := IsThrottled redisModel tlEngine tlReq tlRun2.2

/-- A rule violating the `limit >= 1` invariant. -/
def badRule : ThrottleRule := ⟨[], str "GET", str "k", 0, 60000000000⟩

/-- Engine holding only `badRule`. -/
def badEngine : RedisRackAttack := AddThrottleRule New badRule

/-- The wildcard rule of the spec's path-matching examples. -/
def apiRule : ThrottleRule := ⟨str "/api/*", [], [], 1, 1⟩

/-- A rule whose wildcard is not a trailing `/*`. -/
def starRule : ThrottleRule := ⟨str "/a*", [], [], 1, 1⟩

/-- Rule whose key template contains the path placeholder. -/
def rawRule : ThrottleRule := ⟨[], str "GET", str "k:%\x7bpath\x7d", 5, 60000000000⟩

/-- Request whose raw path `/a/../b` differs from its cleaned form `/b`. -/
def rawReq : Request := ⟨[], str "9.9.9.9:80", str "GET", str "/a/../b"⟩

/-- One engine evaluation of `rawReq` against `rawRule` from a fresh
backend. -/
def rawPathRun : (Bool × Option Str) × RedisState :=
  IsThrottled redisModel (AddThrottleRule New rawRule) rawReq freshRedis

/-- Rule of the intended throttle scenario: method `GET`, limit 2. -/
def okRule : ThrottleRule :=
  ⟨[], str "GET", str "throttle:test:%\x7bip\x7d", 2, 60000000000⟩

/-- Engine holding only `okRule`. -/
def okEngine : RedisRackAttack := AddThrottleRule New okRule

/-- Counter key rendered by `okRule` for `tlReq`. -/
def okKey : Str := str "throttle:test:10.0.0.5"

/-- Engine of the repository test `TestSafelistedIP`. -/
def safeEngine : RedisRackAttack := SafelistIP New (str "192.168.1.100")

/-- Request of the repository test `TestSafelistedIP`. -/
def safeReq : Request := ⟨[], str "192.168.1.100:1234", str "GET", str "/"⟩

/-- Engine of the repository test `TestBlocklistedIP`. -/
def blockEngine : RedisRackAttack := BlocklistIP New (str "10.0.0.1")

/-- Request of the repository test `TestBlocklistedIP`. -/
def blockReq : Request := ⟨[], str "10.0.0.1:1234", str "GET", str "/"⟩

/-- Rule with an exact (non-wildcard) path pattern. -/
def loginRule : ThrottleRule := ⟨str "/login", [], [], 1, 1⟩

/-- Rule whose pattern does not match the root path. -/
def missRule : ThrottleRule := ⟨str "/other", str "GET", str "m", 1, 1⟩

/-- Rule matching the root path with a placeholder-free key template. -/
def hitRule : ThrottleRule := ⟨[], str "GET", str "bad:key", 1, 60000000000⟩

/-- Engine with a non-matching rule registered before a matching one. -/
def mixedEngine : RedisRackAttack := AddThrottleRule (AddThrottleRule New missRule) hitRule

/-- Engine with one safelist entry, one blocklist entry and one blocklist
CIDR range, all well-formed. -/
def fullEngine : RedisRackAttack :=
  SafelistIP
    (BlocklistIP ((BlocklistCIDR New (str "10.0.0.0/24")).toOption.getD New)
      (str "10.0.0.1"))
    (str "1.2.3.4")

lemma setEntry_now (s : RedisState) (k : Str) (e : RedisEntry) :
    (setEntry s k e).now = s.now := rfl

lemma setEntry_same (s : RedisState) (k : Str) (e : RedisEntry) :
    (setEntry s k e).entries k = some e := by simp [setEntry]

lemma liveEntry_of_entries (s : RedisState) (k : Str) (v d : Int)
    (he : s.entries k = some ⟨v, some d⟩) (hd : s.now < d) :
    liveEntry s k = some ⟨v, some d⟩ := by
  simp [liveEntry, he, hd]

lemma liveEntry_none_of_past (s : RedisState) (k : Str) (v d : Int)
    (he : s.entries k = some ⟨v, some d⟩) (hd : ¬ s.now < d) :
    liveEntry s k = none := by
  simp [liveEntry, he, hd]

lemma redisIncr_fresh (s : RedisState) (k : Str) (h : liveEntry s k = none) :
    redisIncr s k = (.ok 1, setEntry s k ⟨1, none⟩) := by
  simp [redisIncr, h]

lemma redisIncr_live (s : RedisState) (k : Str) (e : RedisEntry)
    (h : liveEntry s k = some e) :
    redisIncr s k = (.ok (e.value + 1), setEntry s k ⟨e.value + 1, e.deadline⟩) := by
  simp [redisIncr, h]

lemma redisExpire_live (s : RedisState) (k : Str) (e : RedisEntry) (p : Int)
    (h : liveEntry s k = some e) :
    redisExpire s k p = setEntry s k ⟨e.value, some (s.now + p)⟩ := by
  simp [redisExpire, h]

lemma liveEntry_setEntry_noDeadline (s : RedisState) (k : Str) (v : Int) :
    liveEntry (setEntry s k ⟨v, none⟩) k = some ⟨v, none⟩ := by
  simp [liveEntry, setEntry]

lemma isThrottled_step_live (ra : RedisRackAttack) (rule : ThrottleRule) (k : Str)
    (r : Request) (s : RedisState) (v : Int) (dl : Option Int)
    (hra : ra.throttleRules = [rule]) (hg : GoodReq ra rule k r)
    (hlive : liveEntry s k = some ⟨v, dl⟩) (hv : 1 ≤ v) :
    IsThrottled redisModel ra r s =
      ((decide (v + 1 > rule.Limit), none), setEntry s k ⟨v + 1, dl⟩) := by
  obtain ⟨hsafe, hblock, hmatch, hmeth, hkey⟩ := hg
  have hsafe' : clientIP r ∉ ra.safelistIPs := by simpa using hsafe
  have hne : ¬ (v + 1 = 1) := by omega
  have h1 := redisIncr_live s k ⟨v, dl⟩ hlive
  by_cases hgt : v + 1 > rule.Limit <;>
    simp [IsThrottled, hsafe', hblock, hra, throttleLoop, hmatch, hmeth, hkey,
      redisModel, h1, hne, hgt]

lemma isThrottled_step_fresh (ra : RedisRackAttack) (rule : ThrottleRule) (k : Str)
    (r : Request) (s : RedisState)
    (hra : ra.throttleRules = [rule]) (hg : GoodReq ra rule k r)
    (hlive : liveEntry s k = none) :
    IsThrottled redisModel ra r s =
      ((decide (1 > rule.Limit), none),
       setEntry (setEntry s k ⟨1, none⟩) k ⟨1, some (s.now + rule.Period)⟩) := by
  obtain ⟨hsafe, hblock, hmatch, hmeth, hkey⟩ := hg
  have hsafe' : clientIP r ∉ ra.safelistIPs := by simpa using hsafe
  have h1 := redisIncr_fresh s k hlive
  have h2 := redisExpire_live (setEntry s k ⟨1, none⟩) k ⟨1, none⟩ rule.Period
    (liveEntry_setEntry_noDeadline s k 1)
  by_cases hgt : (1 : Int) > rule.Limit <;>
    simp [IsThrottled, hsafe', hblock, hra, throttleLoop, hmatch, hmeth, hkey,
      redisModel, h1, h2, hgt, setEntry_now]

lemma runAll_under_limit (ra : RedisRackAttack) (rule : ThrottleRule) (k : Str)
    (hra : ra.throttleRules = [rule]) :
    ∀ (reqs : List Request) (s : RedisState) (v d : Int),
    (∀ r ∈ reqs, GoodReq ra rule k r) →
    s.entries k = some ⟨v, some d⟩ → s.now < d → 1 ≤ v →
    v + reqs.length ≤ rule.Limit →
    (runAll redisModel ra reqs s).1 = List.replicate reqs.length (false, none) ∧
    (runAll redisModel ra reqs s).2.now = s.now ∧
    (runAll redisModel ra reqs s).2.entries k = some ⟨v + reqs.length, some d⟩
  | [], s, v, d, _, hentry, _, _, _ => by
    simpa [runAll] using hentry
  | r :: rest, s, v, d, hreqs, hentry, hnow, hv, hcount => by
    have hlive : liveEntry s k = some ⟨v, some d⟩ := liveEntry_of_entries s k v d hentry hnow
    have hstep := isThrottled_step_live ra rule k r s v (some d) hra
      (hreqs r (by simp)) hlive hv
    have hfalse : decide (v + 1 > rule.Limit) = false := by
      have : ¬ (v + 1 > rule.Limit) := by
        have := hcount
        simp only [List.length_cons] at this
        push_cast at this
        omega
      simpa using this
    have hrec := runAll_under_limit ra rule k hra rest (setEntry s k ⟨v + 1, some d⟩)
      (v + 1) d (fun r2 h2 => hreqs r2 (by simp [h2]))
      (setEntry_same s k ⟨v + 1, some d⟩) (by simpa [setEntry_now] using hnow)
      (by omega)
      (by
        have := hcount
        simp only [List.length_cons] at this
        push_cast at this ⊢
        omega)
    refine ⟨?_, ?_, ?_⟩
    · simp [runAll, hstep, hfalse, hrec.1, List.replicate_succ]
    · simp [runAll, hstep, hrec.2.1, setEntry_now]
    · simp only [runAll, hstep, hfalse]
      have := hrec.2.2
      simp only [List.length_cons]
      convert this using 3
      push_cast
      ring

lemma advance_now (s : RedisState) (d : Int) : (advance s d).now = s.now + d := rfl

lemma advance_entries (s : RedisState) (d : Int) (k : Str) :
    (advance s d).entries k = s.entries k := rfl

lemma isBlocked_of_hit (ra : RedisRackAttack) (ip : Str)
    (h : ra.blocklistIPs.contains ip = true ∨
      ∃ c ∈ ra.blocklistCIDRs, GoNet.ipnetContains c (GoNet.parseIP ip) = true) :
    IsBlocked ra ip = true := by
  have h2 : ip ∈ ra.blocklistIPs ∨
      ∃ c ∈ ra.blocklistCIDRs, GoNet.ipnetContains c (GoNet.parseIP ip) = true := by
    rcases h with h | h
    · exact Or.inl (by simpa using h)
    · exact Or.inr h
  by_cases hb : ip ∈ ra.blocklistIPs
  · simp [IsBlocked, hb]
  · rcases h2 with h2 | h2
    · exact absurd h2 hb
    · simp [IsBlocked, h2]

lemma throttleLoop_skip (σ : Type) (store : CounterStore σ) (ip p m : Str) :
    ∀ (pre rules : List ThrottleRule) (s : σ),
    (∀ r ∈ pre, (matchesPath r p && m == r.Method) = false) →
    throttleLoop store ip p m (pre ++ rules) s = throttleLoop store ip p m rules s
  | [], rules, s, _ => rfl
  | r :: pre, rules, s, h => by
    have hr := h r (by simp)
    rw [List.cons_append]
    show throttleLoop store ip p m (r :: (pre ++ rules)) s = _
    simp only [throttleLoop, hr, Bool.not_false, if_true]
    exact throttleLoop_skip σ store ip p m pre rules s (fun r2 h2 => h r2 (by simp [h2]))

lemma maskEq_nil_right (x y : List Nat) (hx : x ≠ []) :
    GoNet.maskEq x y [] = false := by
  cases x with
  | nil => exact absurd rfl hx
  | cons a as => cases y <;> rfl

lemma contains_false_of_unparseable (l : List Str) (ip : Str)
    (hip : GoNet.parseIP ip = none)
    (hl : ∀ e ∈ l, (GoNet.parseIP e).isSome) :
    l.contains ip = false := by
  by_cases hm : ip ∈ l
  · have := hl ip hm
    rw [hip] at this
    simp at this
  · simpa using hm

/-- C1 (code bug, failing-input evaluation): the claim and the repository's
own test `TestThrottleLimit` say a rule with an empty method field matches
every HTTP method, but in the code a rule matches only when the request
method equals `rule.Method` exactly.  With `TestThrottleLimit`'s
configuration (rule with empty method, limit 2) a GET request is never
matched: in every backend state the decision is `(false, nil)` with the
state unchanged, the third consecutive request is not throttled (the test
asserts that it is), and the rule's counter key is never created. -/
theorem c1_empty_method_never_matches :
    (∀ s : RedisState, IsThrottled redisModel tlEngine tlReq s = ((false, none), s)) ∧
    tlRun3.1 = (false, none) ∧
    tlRun3.2.entries (str "throttle:test:10.0.0.5") = none :=
  ⟨fun _ => rfl, by decide, by decide⟩

/-- C2, counterexample: a rule with limit 0 is neither rejected by
`AddThrottleRule` nor treated as a no-op — it is registered as-is and the
very first matching request is throttled. -/
theorem c2_counterexample :
    badRule.Limit < 1 ∧
    badEngine.throttleRules = [badRule] ∧
    (IsThrottled redisModel badEngine tlReq freshRedis).1 = (true, none) := by
  refine ⟨by decide, rfl, by decide⟩

/-- C2, amended: `AddThrottleRule` performs no validation, and a
registered rule with `limit < 1` is not a no-op: a matching request on a
fresh counter key is throttled immediately, because the post-increment
count 1 already exceeds the limit. -/
theorem c2_no_validation_low_limit_throttles (rule : ThrottleRule) (r : Request)
    (s : RedisState)
    (hlim : rule.Limit < 1)
    (hmatch : matchesPath rule r.urlPath = true)
    (hmeth : r.method = rule.Method)
    (hfresh : liveEntry s (renderKey rule.Key (clientIP r) r.urlPath) = none) :
    (AddThrottleRule New rule).throttleRules = [rule] ∧
    (IsThrottled redisModel (AddThrottleRule New rule) r s).1 = (true, none) := by
  refine ⟨rfl, ?_⟩
  have hg : GoodReq (AddThrottleRule New rule) rule
      (renderKey rule.Key (clientIP r) r.urlPath) r :=
    ⟨rfl, rfl, hmatch, hmeth, rfl⟩
  have hstep := isThrottled_step_fresh (AddThrottleRule New rule) rule
    (renderKey rule.Key (clientIP r) r.urlPath) r s rfl hg hfresh
  rw [hstep]
  simp only [Prod.fst]
  have : decide ((1 : Int) > rule.Limit) = true := by
    simp only [decide_eq_true_eq]
    omega
  rw [this]

/-- Witness for C2's amended theorem at the concrete limit-0 rule. -/
theorem c2_witness :
    (AddThrottleRule New badRule).throttleRules = [badRule] ∧
    (IsThrottled redisModel (AddThrottleRule New badRule) tlReq freshRedis).1
      = (true, none) :=
  c2_no_validation_low_limit_throttles badRule tlReq freshRedis (by decide) (by decide)
    (by decide) (by decide)

/-- C3: for an engine holding a single rule with limit `L ≥ 1` and
positive period, `L` matching requests rendering the same fresh counter
key each return `(false, nil)`; the `(L+1)`th request within the same
period returns `(true, nil)`; the counter's expiry deadline is set exactly
at the first increment (post-increment count 1) and is never touched
afterwards; and once the period has elapsed the key has expired and the
next matching request returns `(false, nil)` again. -/
theorem c3_fixed_window (ra : RedisRackAttack) (rule : ThrottleRule) (k : Str)
    (r1 : Request) (rest : List Request) (rN rE : Request) (s0 : RedisState)
    (hra : ra.throttleRules = [rule])
    (hlim : 1 ≤ rule.Limit) (hper : 0 < rule.Period)
    (hlen : (rest.length : Int) = rule.Limit - 1)
    (hg1 : GoodReq ra rule k r1) (hgs : ∀ r ∈ rest, GoodReq ra rule k r)
    (hgN : GoodReq ra rule k rN) (hgE : GoodReq ra rule k rE)
    (hfresh : liveEntry s0 k = none) :
    (runAll redisModel ra (r1 :: rest) s0).1
        = List.replicate (rest.length + 1) (false, none) ∧
    (runAll redisModel ra (r1 :: rest) s0).2.entries k
        = some ⟨rule.Limit, some (s0.now + rule.Period)⟩ ∧
    (IsThrottled redisModel ra rN (runAll redisModel ra (r1 :: rest) s0).2).1
        = (true, none) ∧
    (IsThrottled redisModel ra rN (runAll redisModel ra (r1 :: rest) s0).2).2.entries k
        = some ⟨rule.Limit + 1, some (s0.now + rule.Period)⟩ ∧
    (IsThrottled redisModel ra rE
        (advance (IsThrottled redisModel ra rN
          (runAll redisModel ra (r1 :: rest) s0).2).2 rule.Period)).1
      = (false, none) := by
  set d := s0.now + rule.Period with hd
  have hstep1 := isThrottled_step_fresh ra rule k r1 s0 hra hg1 hfresh
  have hno1 : decide ((1 : Int) > rule.Limit) = false := by
    rw [decide_eq_false_iff_not]
    omega
  set s1 := setEntry (setEntry s0 k ⟨1, none⟩) k ⟨1, some d⟩ with hs1
  have hs1e : s1.entries k = some ⟨1, some d⟩ := setEntry_same _ k _
  have hs1now : s1.now = s0.now := by simp [hs1, setEntry_now]
  have hs1lt : s1.now < d := by omega
  have hrec := runAll_under_limit ra rule k hra rest s1 1 d hgs hs1e hs1lt (by omega)
    (by omega)
  set sL := (runAll redisModel ra rest s1).2 with hsL
  have hsLe : sL.entries k = some ⟨1 + rest.length, some d⟩ := hrec.2.2
  have hsLe' : sL.entries k = some ⟨rule.Limit, some d⟩ := by
    rw [hsLe]
    congr 2
    omega
  have hsLnow : sL.now = s0.now := by rw [hrec.2.1, hs1now]
  have hsLlt : sL.now < d := by omega
  have hrun : runAll redisModel ra (r1 :: rest) s0
      = ((false, none) :: (runAll redisModel ra rest s1).1, sL) := by
    simp [runAll, hstep1, hno1, hsL]
  have hliveL : liveEntry sL k = some ⟨rule.Limit, some d⟩ :=
    liveEntry_of_entries sL k _ d hsLe' hsLlt
  have hstepN := isThrottled_step_live ra rule k rN sL rule.Limit (some d) hra hgN
    hliveL hlim
  have hyes : decide (rule.Limit + 1 > rule.Limit) = true := by
    simp only [decide_eq_true_eq]
    omega
  set sB := setEntry sL k ⟨rule.Limit + 1, some d⟩ with hsB
  have hsBe : sB.entries k = some ⟨rule.Limit + 1, some d⟩ := setEntry_same _ k _
  have hsBnow : sB.now = sL.now := setEntry_now _ k _
  have hadv : liveEntry (advance sB rule.Period) k = none := by
    refine liveEntry_none_of_past _ k (rule.Limit + 1) d ?_ ?_
    · rw [advance_entries, hsBe]
    · rw [advance_now, hsBnow, hsLnow]
      omega
  have hstepE := isThrottled_step_fresh ra rule k rE (advance sB rule.Period) hra hgE hadv
  refine ⟨?_, ?_, ?_, ?_, ?_⟩
  · rw [hrun]
    simp [hrec.1, List.replicate_succ]
  · rw [hrun]
    exact hsLe'
  · rw [hrun]
    simp [hstepN, hyes]
  · rw [hrun]
    simp [hstepN, hyes, hsB, setEntry_same]
  · rw [hrun]
    simp only [hstepN, hyes]
    simp [hstepE, hno1]

/-- Witness for C3 with limit 2: two allowed requests, a throttled third,
and an allowed request after the period has elapsed. -/
theorem c3_witness :
    (runAll redisModel okEngine (tlReq :: [tlReq]) freshRedis).1
        = List.replicate ([tlReq].length + 1) (false, none) ∧
    (runAll redisModel okEngine (tlReq :: [tlReq]) freshRedis).2.entries okKey
        = some ⟨okRule.Limit, some (freshRedis.now + okRule.Period)⟩ ∧
    (IsThrottled redisModel okEngine tlReq
        (runAll redisModel okEngine (tlReq :: [tlReq]) freshRedis).2).1
        = (true, none) ∧
    (IsThrottled redisModel okEngine tlReq
        (runAll redisModel okEngine (tlReq :: [tlReq]) freshRedis).2).2.entries okKey
        = some ⟨okRule.Limit + 1, some (freshRedis.now + okRule.Period)⟩ ∧
    (IsThrottled redisModel okEngine tlReq
        (advance (IsThrottled redisModel okEngine tlReq
          (runAll redisModel okEngine (tlReq :: [tlReq]) freshRedis).2).2
          okRule.Period)).1
      = (false, none) :=
  c3_fixed_window okEngine okRule okKey tlReq [tlReq] tlReq tlReq freshRedis rfl
    (by decide) (by decide) (by decide) (by decide) (by decide) (by decide) (by decide)
    (by decide)

/-- C4: a request whose extracted client IP is in the safelist is answered
`(false, nil)` immediately, for every counter store, engine configuration
(blocklist, CIDR ranges, rules) and backend state, and the backend state
is untouched. -/
theorem c4_safelist_short_circuit (σ : Type) (store : CounterStore σ)
    (ra : RedisRackAttack) (req : Request) (s : σ)
    (hsafe : ra.safelistIPs.contains (clientIP req) = true) :
    IsThrottled store ra req s = ((false, none), s) := by
  have h : clientIP req ∈ ra.safelistIPs := by simpa using hsafe
  simp [IsThrottled, h]

/-- Witness for C4 at the configuration of `TestSafelistedIP`. -/
theorem c4_witness :
    IsThrottled redisModel safeEngine safeReq freshRedis = ((false, none), freshRedis) :=
  c4_safelist_short_circuit RedisState redisModel safeEngine safeReq freshRedis (by decide)

/-- C5: a request whose client IP is not safelisted and is an exact
blocklist member, or lies inside a registered blocklist CIDR range, is
answered `(true, nil)` immediately with the backend state untouched — no
throttle rule is consulted and no counter incremented. -/
theorem c5_blocklist_denies (σ : Type) (store : CounterStore σ)
    (ra : RedisRackAttack) (req : Request) (s : σ)
    (hsafe : ra.safelistIPs.contains (clientIP req) = false)
    (hhit : ra.blocklistIPs.contains (clientIP req) = true ∨
      ∃ c ∈ ra.blocklistCIDRs,
        GoNet.ipnetContains c (GoNet.parseIP (clientIP req)) = true) :
    IsThrottled store ra req s = ((true, none), s) := by
  have hsafe' : clientIP req ∉ ra.safelistIPs := by simpa using hsafe
  simp [IsThrottled, hsafe', isBlocked_of_hit ra (clientIP req) hhit]

/-- Witness for C5 at the configuration of `TestBlocklistedIP`. -/
theorem c5_witness :
    IsThrottled redisModel blockEngine blockReq freshRedis = ((true, none), freshRedis) :=
  c5_blocklist_denies RedisState redisModel blockEngine blockReq freshRedis (by decide)
    (Or.inl (by decide))

/-- C6: path matching cleans the request path before comparing; an empty
pattern matches every path; a pattern without a wildcard requires the
cleaned path to equal the cleaned pattern; and the wildcard pattern
`/api/*` matches `/api`, `/api/`, `/api/x` and `/api/x/y` but neither
`/apiextra` nor `/other`. -/
theorem c6_path_pattern_semantics :
    (∀ (r : ThrottleRule) (p : Str), r.PathPattern = [] → matchesPath r p = true) ∧
    (∀ (r : ThrottleRule) (p : Str), r.PathPattern.contains '*' = false →
      r.PathPattern ≠ [] →
      matchesPath r p = decide (GoStd.pathClean p = GoStd.pathClean r.PathPattern)) ∧
    matchesPath apiRule (str "/api") = true ∧
    matchesPath apiRule (str "/api/") = true ∧
    matchesPath apiRule (str "/api/x") = true ∧
    matchesPath apiRule (str "/api/x/y") = true ∧
    matchesPath apiRule (str "/apiextra") = false ∧
    matchesPath apiRule (str "/other") = false := by
  refine ⟨?_, ?_, by decide, by decide, by decide, by decide, by decide, by decide⟩
  · intro r p h
    simp [matchesPath, h]
  · intro r p hstar hne
    have hstar2 : '*' ∉ r.PathPattern := by simpa using hstar
    simp [matchesPath, hne, hstar2]

/-- Witness for C6: a dot-segment path is cleaned before the exact
comparison. -/
theorem c6_witness :
    matchesPath loginRule (str "/login/../login") = true := by
  rw [c6_path_pattern_semantics.2.1 loginRule (str "/login/../login") (by decide)
    (by decide)]
  decide

/-- C7: when the counter store's increment fails on the first matching
rule, `IsThrottled` returns `(false, err)` at once, for every tail of
remaining rules, and the failure is not converted into an allow or deny
decision. -/
theorem c7_storage_error_propagates (σ : Type) (store : CounterStore σ)
    (ra : RedisRackAttack) (req : Request) (s s1 : σ)
    (pre post : List ThrottleRule) (rule : ThrottleRule) (e : Str)
    (hsafe : ra.safelistIPs.contains (clientIP req) = false)
    (hblock : IsBlocked ra (clientIP req) = false)
    (hrules : ra.throttleRules = pre ++ rule :: post)
    (hpre : ∀ r ∈ pre, (matchesPath r req.urlPath && req.method == r.Method) = false)
    (hmatch : matchesPath rule req.urlPath = true)
    (hmeth : req.method = rule.Method)
    (herr : store.incr s (renderKey rule.Key (clientIP req) req.urlPath)
        = (.error e, s1)) :
    IsThrottled store ra req s = ((false, some e), s1) := by
  have hsafe' : clientIP req ∉ ra.safelistIPs := by simpa using hsafe
  have hloop : throttleLoop store (clientIP req) req.urlPath req.method
      (pre ++ rule :: post) s = ((false, some e), s1) := by
    rw [throttleLoop_skip σ store (clientIP req) req.urlPath req.method pre
      (rule :: post) s hpre]
    simp [throttleLoop, hmatch, hmeth, herr]
  simp [IsThrottled, hsafe', hblock, hrules, hloop]

/-- Witness for C7 with a failing backend and a non-matching rule
registered before the matching one. -/
theorem c7_witness :
    IsThrottled (failingStore (str "bad:key")) mixedEngine tlReq freshRedis
      = ((false, some (str "connection refused")), freshRedis) :=
  c7_storage_error_propagates RedisState (failingStore (str "bad:key")) mixedEngine
    tlReq freshRedis freshRedis [missRule] [] hitRule (str "connection refused")
    (by decide) (by decide) rfl (by decide) (by decide) (by decide) rfl

/-- C8: an unparseable client IP string is harmless: the CIDR range check
returns false on every registered range, `IsBlocked` reduces to the exact
set lookup and is false when the blocklist holds only parseable entries,
the safelist likewise cannot contain it, the empty string does not parse,
and a request whose remote address has no port yields the empty client
IP. -/
theorem c8_malformed_ip_is_harmless (ra : RedisRackAttack) (ip : Str)
    (hip : GoNet.parseIP ip = none)
    (hcidr : ∀ c ∈ ra.blocklistCIDRs, c.ip ≠ [])
    (hbl : ∀ e ∈ ra.blocklistIPs, (GoNet.parseIP e).isSome)
    (hsl : ∀ e ∈ ra.safelistIPs, (GoNet.parseIP e).isSome) :
    (∀ c ∈ ra.blocklistCIDRs, GoNet.ipnetContains c (GoNet.parseIP ip) = false) ∧
    IsBlocked ra ip = false ∧
    ra.safelistIPs.contains ip = false ∧
    ra.blocklistIPs.contains ip = false ∧
    GoNet.parseIP [] = none ∧
    clientIP ⟨[], str "10.0.0.5", str "GET", str "/"⟩ = [] := by
  have hrange : ∀ c ∈ ra.blocklistCIDRs,
      GoNet.ipnetContains c (GoNet.parseIP ip) = false := by
    intro c hc
    rw [hip]
    exact maskEq_nil_right c.ip c.mask (hcidr c hc)
  have hbl2 := contains_false_of_unparseable ra.blocklistIPs ip hip hbl
  have hsl2 := contains_false_of_unparseable ra.safelistIPs ip hip hsl
  refine ⟨hrange, ?_, hsl2, hbl2, by decide, by decide⟩
  have hbl3 : ip ∉ ra.blocklistIPs := by simpa using hbl2
  simp only [IsBlocked]
  rw [if_neg (by simpa using hbl3)]
  rw [List.any_eq_false]
  intro c hc
  simp [hrange c hc]

/-- Witness for C8 on an engine with a safelist entry, a blocklist entry
and a CIDR range. -/
theorem c8_witness :
    (∀ c ∈ fullEngine.blocklistCIDRs,
      GoNet.ipnetContains c (GoNet.parseIP (str "not-an-ip")) = false) ∧
    IsBlocked fullEngine (str "not-an-ip") = false ∧
    fullEngine.safelistIPs.contains (str "not-an-ip") = false ∧
    fullEngine.blocklistIPs.contains (str "not-an-ip") = false ∧
    GoNet.parseIP [] = none ∧
    clientIP ⟨[], str "10.0.0.5", str "GET", str "/"⟩ = [] :=
  c8_malformed_ip_is_harmless fullEngine (str "not-an-ip") (by decide) (by decide)
    (by decide) (by decide)

/-- C9: key rendering substitutes every occurrence of the ip placeholder
with the client IP and every occurrence of the path placeholder with the
raw, unmodified request path; the spec's example renders as stated, and
inside the engine the raw path `/a/../b` — not its cleaned form `/b` — is
substituted into the counter key. -/
theorem c9_key_rendering :
    (∀ ip p : Str, renderKey (str "ratelimit:%\x7bip\x7d:%\x7bpath\x7d") ip p
        = str "ratelimit:" ++ ip ++ [':'] ++ p) ∧
    renderKey (str "ratelimit:%\x7bip\x7d:%\x7bpath\x7d") (str "1.2.3.4") (str "/login")
        = str "ratelimit:1.2.3.4:/login" ∧
    renderKey (str "%\x7bip\x7d-%\x7bip\x7d|%\x7bpath\x7d%\x7bpath\x7d")
        (str "7.7.7.7") (str "/x")
        = str "7.7.7.7-7.7.7.7|/x/x" ∧
    rawPathRun.2.entries (str "k:/a/../b") = some ⟨1, some 60000000000⟩ ∧
    rawPathRun.2.entries (str "k:/b") = none := by
  refine ⟨?_, by decide, by decide, by decide, by decide⟩
  intro ip p
  simp [renderKey, renderScan, str]

/-- C10: every pattern containing `*` anywhere is matched via the
suffix-stripping branch (trim a trailing `/*`, then the slash-terminated
leading-segments test) and never falls back to exact comparison; the
pattern `/a*` matches exactly the paths whose cleaned form is `/a*` or
starts with `/a*/`. -/
theorem c10_wildcard_anywhere_takes_the_suffix_branch :
    (∀ (r : ThrottleRule) (p : Str), r.PathPattern.contains '*' = true →
      matchesPath r p =
        (GoStd.trimSuffix r.PathPattern (str "/*") ++ ['/']).isPrefixOf
          (GoStd.pathClean p ++ ['/'])) ∧
    GoStd.trimSuffix starRule.PathPattern (str "/*") = str "/a*" ∧
    matchesPath starRule (str "/a*") = true ∧
    matchesPath starRule (str "/a*/x") = true ∧
    matchesPath starRule (str "/ab") = false ∧
    matchesPath starRule (str "/a") = false ∧
    matchesPath starRule (str "/a/x") = false := by
  refine ⟨?_, by decide, by decide, by decide, by decide, by decide, by decide⟩
  intro r p h
  have h2 : '*' ∈ r.PathPattern := by simpa using h
  have hne : r.PathPattern ≠ [] := by
    intro he
    rw [he] at h2
    simp at h2
  simp [matchesPath, hne, h2]

/-- Witness for C10: `/a*` literally matches a path starting with the two
characters `a*`. -/
theorem c10_witness :
    matchesPath starRule (str "/a*/zz") = true := by
  rw [c10_wildcard_anywhere_takes_the_suffix_branch.1 starRule (str "/a*/zz") (by decide)]
  decide
